import Mathlib

/-!
# Verification of `RpcSequencer` (src/framework/audio/internal/rpc/rpcsequencer.cpp)

Shallow embedding of the RPC sequencer proxy: an addressed message-dispatch
bridge.  The proxy translates imperative calls into outbound `Msg` values,
caches state updated only by inbound events, and keeps a lazily bound
per-track-id registry of event channels.

Modelling conventions:
* `track_id`, `tick_t` and `Status` are opaque scalar values, embedded as `Nat`
  (the code only stores, compares and forwards them).
* The C++ `float m_playbackPosition` is only ever stored and returned verbatim
  (never computed with), so it is embedded as an opaque surrogate value (`Int`).
* `mu::async::Channel` has shared-reference semantics; a channel is embedded as
  an allocation identity `cid` (a fresh number drawn from a world-level
  allocation counter) together with the list of values sent into it.
* Live stream handles (`MidiStream`, `IAudioStream`, `MidiData`) are embedded
  by their identity only (a `Nat` handle), since the proxy never inspects them.
* Outbound sends are collected in explicit `List Msg` outputs; the functions
  are total and pure, mirroring the fire-and-forget, non-blocking C++ calls.
* The function-local `static std::map<Method, Call> calls` in the listener
  lambda is shared process-wide, and its handler closures capture the `this`
  of whichever proxy instance first populated it.  The embedding models this
  with a `World` holding all proxy instances and a `builder : Option Nat`
  recording which instance's `this` the static table captured.
-/

/-- The positional argument values that cross the RPC boundary. -/
inductive Val where
  | tid (id : Nat)
  | tick (t : Nat)
  | vstatus (s : Nat)
  | vfloat (x : Int)
  | midiStream (h : Nat)
  | audioStream (h : Nat)
  | midiData (h : Nat)
  | u64 (n : Nat)
  deriving DecidableEq, Repr

/-- `Target` names a logical endpoint; compared by total equality. -/
abbrev Target := Nat

/-- `Target(TargetName::Sequencer)`, the target set by the constructor. -/
def sequencerTarget : Target := 1

/-- A `Msg`: target, method name, ordered positional args (`rpc::Msg`). -/
structure Msg where
  target : Target
  method : String
  args : List Val
  deriving DecidableEq, Repr

/-- An `mu::async::Channel`: allocation identity plus values sent into it. -/
structure Chan where
  cid : Nat
  recv : List Nat
  deriving DecidableEq, Repr

/-- `std::map<track_id, Channel>::find`, on the assoc-list embedding. -/
def mapFind : List (Nat × Chan) → Nat → Option Chan
  | [], _ => none
  | (k', c) :: rest, k => if k = k' then some c else mapFind rest k

/-- Replace the value stored at key `k` (keys are unique in a `std::map`). -/
def mapReplace : List (Nat × Chan) → Nat → Chan → List (Nat × Chan)
  | [], _, _ => []
  | (k', c) :: rest, k, newc =>
      if k = k' then (k', newc) :: rest else (k', c) :: mapReplace rest k newc

/-- The fields of one `RpcSequencer` instance.  `m_statusChanged` is the list
of values pushed through the status channel, `m_positionChanged` the count of
zero-payload notifications, `m_midiTickPlayed` the per-track channel registry. -/
structure RpcSequencer where
  m_target : Target
  m_status : Nat
  m_statusChanged : List Nat
  m_playbackPosition : Int
  m_positionChanged : Nat
  m_midiTickPlayed : List (Nat × Chan)
  m_listenID : Nat
  deriving DecidableEq, Repr

/-- The `RpcSequencer` constructor: `m_target = Target(TargetName::Sequencer)`;
other members default-initialized. -/
def RpcSequencer.new : RpcSequencer :=
  { m_target := sequencerTarget
    m_status := 0
    m_statusChanged := []
    m_playbackPosition := 0
    m_positionChanged := 0
    m_midiTickPlayed := []
    m_listenID := 0 }

/-- Output of a proxy call that may hit the serialized-transport guard:
the Messages handed to the transport and whether `NOT_IMPLEMENTED` fired.

Modelled from the spec: the `NOT_IMPLEMENTED` macro (defined in `log.h`, which
is not part of this slice) is the "explicit not-implemented signal raised to
the caller"; it is embedded as the `notImpl` flag of the call's outcome. -/
structure CallOut where
  sent : List Msg
  notImpl : Bool
  deriving DecidableEq, Repr

/-- `RpcSequencer::initMIDITrack`. -/
def initMIDITrack (s : RpcSequencer) (id : Nat) : List Msg :=
  [⟨s.m_target, "initMIDITrack", [Val.tid id]⟩]

/-- `RpcSequencer::initAudioTrack`. -/
def initAudioTrack (s : RpcSequencer) (id : Nat) : List Msg :=
  [⟨s.m_target, "initAudioTrack", [Val.tid id]⟩]

/-- `RpcSequencer::setMIDITrack`: guarded by `rpcChannel()->isSerialized()`. -/
def setMIDITrack (serialized : Bool) (s : RpcSequencer) (id stream : Nat) : CallOut :=
  if serialized then
    { sent := [], notImpl := true }
  else
    { sent := [⟨s.m_target, "setMIDITrack", [Val.tid id, Val.midiStream stream]⟩]
      notImpl := false }

/-- `RpcSequencer::setAudioTrack`: guarded by `rpcChannel()->isSerialized()`. -/
def setAudioTrack (serialized : Bool) (s : RpcSequencer) (id stream : Nat) : CallOut :=
  if serialized then
    { sent := [], notImpl := true }
  else
    { sent := [⟨s.m_target, "setAudioTrack", [Val.tid id, Val.audioStream stream]⟩]
      notImpl := false }

/-- `RpcSequencer::play`. -/
def play (s : RpcSequencer) : List Msg := [⟨s.m_target, "play", []⟩]

/-- `RpcSequencer::pause`. -/
def pause (s : RpcSequencer) : List Msg := [⟨s.m_target, "pause", []⟩]

/-- `RpcSequencer::stop`. -/
def stop (s : RpcSequencer) : List Msg := [⟨s.m_target, "stop", []⟩]

/-- `RpcSequencer::seek`. -/
def seek (s : RpcSequencer) (position : Nat) : List Msg :=
  [⟨s.m_target, "seek", [Val.u64 position]⟩]

/-- `RpcSequencer::rewind`. -/
def rewind (s : RpcSequencer) : List Msg := [⟨s.m_target, "rewind", []⟩]

/-- `RpcSequencer::setLoop`. -/
def setLoop (s : RpcSequencer) (fromMs toMs : Nat) : List Msg :=
  [⟨s.m_target, "setLoop", [Val.u64 fromMs, Val.u64 toMs]⟩]

/-- `RpcSequencer::unsetLoop`. -/
def unsetLoop (s : RpcSequencer) : List Msg := [⟨s.m_target, "unsetLoop", []⟩]

/-- `RpcSequencer::instantlyPlayMidi`: guarded by `isSerialized()`; always
returns `nullptr` (embedded as the constant `none` alongside the outcome). -/
def instantlyPlayMidi (serialized : Bool) (s : RpcSequencer) (data : Nat) :
    CallOut × Option Nat :=
  if serialized then
    ({ sent := [], notImpl := true }, none)
  else
    ({ sent := [⟨s.m_target, "instantlyPlayMidi", [Val.midiData data]⟩]
       notImpl := false }, none)

/-- `RpcSequencer::status`: returns the cached value; no Messages sent. -/
def status (s : RpcSequencer) : Nat × List Msg := (s.m_status, [])

/-- `RpcSequencer::playbackPosition`: returns the cached value; no Messages sent. -/
def playbackPosition (s : RpcSequencer) : Int × List Msg := (s.m_playbackPosition, [])

/-! ## Inbound dispatch

The listener lambda registered in `RpcSequencer::setup` filters by target,
lazily populates a function-local `static std::map<Method, Call> calls`
(whose handler closures capture the `this` of the instance that populated
it), looks the method up, and runs the handler.  A `World` holds every live
proxy instance, the identity of the instance captured by the static table
(`builder`), and the channel-allocation counter. -/

/-- The handlers bound into the static dispatch table in `setup`. -/
inductive HandlerTag where
  | hStatusChanged
  | hPositionChanged
  | hMidiTickPlayed
  deriving DecidableEq, Repr

/-- The method-name keys bound into the static `calls` map, in bind order. -/
def callsTable : List (String × HandlerTag) :=
  [("statusChanged", HandlerTag.hStatusChanged),
   ("positionChanged", HandlerTag.hPositionChanged),
   ("midiTickPlayed", HandlerTag.hMidiTickPlayed)]

/-- `calls.find(msg.method)`. -/
def findCall (method : String) : Option HandlerTag :=
  match callsTable.find? (fun p => p.1 = method) with
  | some p => some p.2
  | none => none

/-- `args.arg<Status>(i)` — decode a `Status` at position `i`. -/
def argStatusAt (args : List Val) (i : Nat) : Option Nat :=
  match args[i]? with
  | some (Val.vstatus s) => some s
  | _ => none

/-- `args.arg<float>(i)` — decode a float at position `i`. -/
def argFloatAt (args : List Val) (i : Nat) : Option Int :=
  match args[i]? with
  | some (Val.vfloat x) => some x
  | _ => none

/-- `args.arg<track_id>(i)` — decode a `track_id` at position `i`. -/
def argTidAt (args : List Val) (i : Nat) : Option Nat :=
  match args[i]? with
  | some (Val.tid id) => some id
  | _ => none

/-- `args.arg<midi::tick_t>(i)` — decode a tick at position `i`. -/
def argTickAt (args : List Val) (i : Nat) : Option Nat :=
  match args[i]? with
  | some (Val.tick t) => some t
  | _ => none

/-- `m_midiTickPlayed[trackID].send(tick)` in the handler: `operator[]`
default-inserts a fresh channel when the key is absent, then the tick is
sent into the (found or created) channel.  Returns the updated registry and
allocation counter. -/
def regSend (reg : List (Nat × Chan)) (fresh k t : Nat) :
    List (Nat × Chan) × Nat :=
  match mapFind reg k with
  | some ch => (mapReplace reg k { ch with recv := ch.recv ++ [t] }, fresh)
  | none => (reg ++ [(k, { cid := fresh, recv := [t] })], fresh + 1)

/-- All live proxy instances, the static-table capture, and the allocator. -/
structure World where
  instances : List RpcSequencer
  builder : Option Nat
  fresh : Nat
  deriving DecidableEq, Repr

/-- Apply the handler for `tag` with the captured `this` of instance `b`.
A decode mismatch is a caller contract violation (`Args::arg` with a wrong
type); the embedding totalizes it as a no-op, which no claim exercises. -/
def applyHandler (w : World) (b : Nat) (tag : HandlerTag) (args : List Val) : World :=
  match w.instances[b]? with
  | none => w
  | some inst =>
    match tag with
    | HandlerTag.hStatusChanged =>
      match argStatusAt args 0 with
      | some s =>
        let inst2 := { inst with m_status := s,
                                 m_statusChanged := inst.m_statusChanged ++ [s] }
        { w with instances := w.instances.set b inst2 }
      | none => w
    | HandlerTag.hPositionChanged =>
      match argFloatAt args 0 with
      | some p =>
        let inst2 := { inst with m_playbackPosition := p,
                                 m_positionChanged := inst.m_positionChanged + 1 }
        { w with instances := w.instances.set b inst2 }
      | none => w
    | HandlerTag.hMidiTickPlayed =>
      match argTidAt args 0, argTickAt args 1 with
      | some k, some t =>
        let rf := regSend inst.m_midiTickPlayed w.fresh k t
        let inst2 := { inst with m_midiTickPlayed := rf.1 }
        { w with instances := w.instances.set b inst2, fresh := rf.2 }
      | _, _ => w

/-- Result of one listener invocation: the new world, the Messages sent
during dispatch (the handlers send none), and which handler ran. -/
structure DispatchOut where
  world : World
  sent : List Msg
  invoked : Option String
  deriving DecidableEq, Repr

/-- The listener lambda of `RpcSequencer::setup`, invoked for instance `i`
when the transport delivers `m`:
1. early-return if `msg.target != m_target`;
2. `if (calls.empty())` populate the static table, capturing this instance's
   `this` (recorded in `builder`);
3. `calls.find(msg.method)`; log and drop when absent;
4. run the handler — against the builder's `this`, not necessarily `i`. -/
def onMsg (w : World) (i : Nat) (m : Msg) : DispatchOut :=
  match w.instances[i]? with
  | none => ⟨w, [], none⟩
  | some inst =>
    if m.target ≠ inst.m_target then ⟨w, [], none⟩
    else
      let w1 : World :=
        match w.builder with
        | some _ => w
        | none => { w with builder := some i }
      let b : Nat :=
        match w1.builder with
        | some b => b
        | none => i
      match findCall m.method with
      | none => ⟨w1, [], none⟩
      | some tag => ⟨applyHandler w1 b tag m.args, [], some m.method⟩

/-- `RpcSequencer::midiTickPlayed(track_id)` — local channel access on
instance `i`: return the registered channel when present; otherwise send one
`bindMidiTickPlayed` Message, insert a fresh channel and return it. -/
def midiTickPlayed (w : World) (i : Nat) (k : Nat) :
    World × List Msg × Option Chan :=
  match w.instances[i]? with
  | none => (w, [], none)
  | some s =>
    match mapFind s.m_midiTickPlayed k with
    | some ch => (w, [], some ch)
    | none =>
      let ch : Chan := { cid := w.fresh, recv := [] }
      let s2 := { s with m_midiTickPlayed := s.m_midiTickPlayed ++ [(k, ch)] }
      ({ w with instances := w.instances.set i s2, fresh := w.fresh + 1 },
       [⟨s.m_target, "bindMidiTickPlayed", [Val.tid k]⟩],
       some ch)

/-! ## Traces over the two paths that touch the subscription registry -/

/-- One step of a trace: a local `midiTickPlayed` access on instance 0, or an
inbound delivery to instance 0's listener. -/
inductive Op where
  | access (k : Nat)
  | deliver (m : Msg)
  deriving DecidableEq, Repr

/-- Run one trace step, collecting the Messages it sends. -/
def stepOp (w : World) (op : Op) : World × List Msg :=
  match op with
  | Op.access k =>
    let r := midiTickPlayed w 0 k
    (r.1, r.2.1)
  | Op.deliver m =>
    let r := onMsg w 0 m
    (r.world, r.sent)

/-- Run a trace, collecting all Messages sent along the way. -/
def runOps (w : World) : List Op → World × List Msg
  | [] => (w, [])
  | op :: rest =>
    let r := stepOp w op
    let r2 := runOps r.1 rest
    (r2.1, r.2 ++ r2.2)

/-- Is `m` the bind-request Message for key `k`? -/
def isBindFor (k : Nat) (m : Msg) : Bool :=
  m.method == "bindMidiTickPlayed" && m.args == [Val.tid k]

/-- How many bind-request Messages for `k` a sent list contains. -/
def bindCount (k : Nat) (ms : List Msg) : Nat :=
  (ms.filter (isBindFor k)).length

/-- The allocation identity of the channel registered for `k` at instance 0. -/
def chanIdAt (w : World) (k : Nat) : Option Nat :=
  match w.instances[0]? with
  | none => none
  | some s =>
    match mapFind s.m_midiTickPlayed k with
    | some ch => some ch.cid
    | none => none

/-! ## The transport collaborator (`rpcChannel()`)

Modelled from the spec: the transport implementation (`IRpcChannel`:
`listen`/`unlisten`/`send`/`isSerialized`) is not part of this repository
slice; §6 of the spec gives its contract: `listen` registers a handler
invoked for every delivered Message (broadcast) and returns a token,
`unlisten` is idempotent removal. -/

structure RpcChannel where
  listeners : List Nat
  nextId : Nat
  deriving DecidableEq, Repr

/-- `rpcChannel()->listen(...)`: register, return the listener token. -/
def RpcChannel.listen (ch : RpcChannel) : RpcChannel × Nat :=
  ({ listeners := ch.listeners ++ [ch.nextId], nextId := ch.nextId + 1 }, ch.nextId)

/-- `rpcChannel()->unlisten(id)`: idempotent removal. -/
def RpcChannel.unlisten (ch : RpcChannel) (id : Nat) : RpcChannel :=
  { ch with listeners := ch.listeners.filter (fun x => x ≠ id) }

/-- The listener registrations whose handlers a broadcast delivery invokes. -/
def deliverIds (ch : RpcChannel) (_m : Msg) : List Nat :=
  ch.listeners

/-- The `listen` call in `RpcSequencer::setup`, storing `m_listenID`. -/
def setupListen (ch : RpcChannel) (s : RpcSequencer) : RpcChannel × RpcSequencer :=
  let r := ch.listen
  (r.1, { s with m_listenID := r.2 })

/-- `RpcSequencer::~RpcSequencer()`: `rpcChannel()->unlisten(m_listenID)`. -/
def destruct (ch : RpcChannel) (s : RpcSequencer) : RpcChannel :=
  ch.unlisten s.m_listenID

/-- Number of registry entries stored under key `k`. -/
def keyCount (reg : List (Nat × Chan)) (k : Nat) : Nat :=
  (reg.filter (fun p => p.1 == k)).length

/-! ## Registry (`std::map`) lemmas -/

lemma mapFind_append_some {reg : List (Nat × Chan)} {k : Nat} {c : Chan}
    (h : mapFind reg k = some c) (l : List (Nat × Chan)) :
    mapFind (reg ++ l) k = some c := by
  induction reg with
  | nil => simp [mapFind] at h
  | cons p rest ih =>
    obtain ⟨k', c'⟩ := p
    by_cases hk : k = k'
    · simp only [mapFind, if_pos hk] at h
      simp [mapFind, if_pos hk, h]
    · simp only [mapFind, if_neg hk] at h
      simp only [List.cons_append, mapFind, if_neg hk]
      exact ih h

lemma mapFind_append_of_none {reg : List (Nat × Chan)} {k : Nat}
    (h : mapFind reg k = none) (c : Chan) :
    mapFind (reg ++ [(k, c)]) k = some c := by
  induction reg with
  | nil => simp [mapFind]
  | cons p rest ih =>
    obtain ⟨k', c'⟩ := p
    by_cases hk : k = k'
    · simp [mapFind, if_pos hk] at h
    · simp only [mapFind, if_neg hk] at h
      simp only [List.cons_append, mapFind, if_neg hk]
      exact ih h

lemma mapFind_append_single_ne {reg : List (Nat × Chan)} {k k' : Nat}
    (h : k ≠ k') (c : Chan) :
    mapFind (reg ++ [(k', c)]) k = mapFind reg k := by
  induction reg with
  | nil => simp [mapFind, h]
  | cons p rest ih =>
    obtain ⟨k0, c0⟩ := p
    by_cases hk : k = k0
    · simp [mapFind, if_pos hk]
    · simp only [List.cons_append, mapFind, if_neg hk]
      exact ih

lemma mapFind_replace_self {reg : List (Nat × Chan)} {k : Nat} {c : Chan}
    (h : mapFind reg k = some c) (c' : Chan) :
    mapFind (mapReplace reg k c') k = some c' := by
  induction reg with
  | nil => simp [mapFind] at h
  | cons p rest ih =>
    obtain ⟨k0, c0⟩ := p
    by_cases hk : k = k0
    · subst hk
      simp [mapFind, mapReplace]
    · simp only [mapFind, if_neg hk] at h
      simp only [mapReplace, if_neg hk, mapFind]
      exact ih h

lemma mapFind_replace_ne {reg : List (Nat × Chan)} {k k0 : Nat} {c0 : Chan}
    (h : k ≠ k0) :
    mapFind (mapReplace reg k0 c0) k = mapFind reg k := by
  induction reg with
  | nil => simp [mapFind, mapReplace]
  | cons p rest ih =>
    obtain ⟨k1, c1⟩ := p
    by_cases hk : k0 = k1
    · subst hk
      simp only [mapReplace, if_pos rfl, mapFind, if_neg h]
    · simp only [mapReplace, if_neg hk, mapFind]
      by_cases hk1 : k = k1
      · simp [if_pos hk1]
      · simp only [if_neg hk1]
        exact ih

lemma keyCount_of_find_none {reg : List (Nat × Chan)} {k : Nat}
    (h : mapFind reg k = none) : keyCount reg k = 0 := by
  induction reg with
  | nil => simp [keyCount]
  | cons p rest ih =>
    obtain ⟨k0, c0⟩ := p
    simp only [mapFind] at h
    split at h
    · exact absurd h (by simp)
    · have hne : ¬(k0 == k) = true := by
        simp only [beq_iff_eq]
        omega
      simp only [keyCount, List.filter_cons]
      rw [if_neg hne]
      exact ih h

/-! ## Claim theorems -/

/-- Claim C1: for every transport mode, in serialized mode each of
`setMIDITrack`, `setAudioTrack` and `instantlyPlayMidi` fails immediately
with an explicit not-implemented signal and sends no Message; in direct
(non-serialized) mode each sends exactly one Message carrying the original
arguments unchanged. -/
theorem c1_transport_mode_guard (s : RpcSequencer) (id h d : Nat) :
    (setMIDITrack true s id h).notImpl = true ∧
    (setMIDITrack true s id h).sent = [] ∧
    (setAudioTrack true s id h).notImpl = true ∧
    (setAudioTrack true s id h).sent = [] ∧
    (instantlyPlayMidi true s d).1.notImpl = true ∧
    (instantlyPlayMidi true s d).1.sent = [] ∧
    (setMIDITrack false s id h).notImpl = false ∧
    (setMIDITrack false s id h).sent =
      [⟨s.m_target, "setMIDITrack", [Val.tid id, Val.midiStream h]⟩] ∧
    (setAudioTrack false s id h).notImpl = false ∧
    (setAudioTrack false s id h).sent =
      [⟨s.m_target, "setAudioTrack", [Val.tid id, Val.audioStream h]⟩] ∧
    (instantlyPlayMidi false s d).1.notImpl = false ∧
    (instantlyPlayMidi false s d).1.sent =
      [⟨s.m_target, "instantlyPlayMidi", [Val.midiData d]⟩] := by
  refine ⟨rfl, rfl, rfl, rfl, rfl, rfl, rfl, rfl, rfl, rfl, rfl, rfl⟩

/-- Claim C5, counterexample: the claim quantifies over every transport mode,
but in serialized mode `setMIDITrack` hits the `NOT_IMPLEMENTED` guard and
sends zero Messages, not exactly one. -/
theorem c5_counterexample :
    ¬ ((setMIDITrack true RpcSequencer.new 0 0).sent.length = 1) := by
  decide

/-- Claim C5, amended: every mutating operation sends exactly one outbound
Message addressed to the proxy's own target, with method name equal to the
operation name and positional args equal to the parameters in order —
unconditionally for the nine unguarded operations, and in direct
(non-serialized) transport mode for the three guarded ones
(`setMIDITrack`, `setAudioTrack`, `instantlyPlayMidi`), which in serialized
mode send no Message at all; every call returns immediately without awaiting
any acknowledgment (all calls are pure sends with no reply input). -/
theorem c5_amended (s : RpcSequencer) (id hm ha d pos a b : Nat) :
    initMIDITrack s id = [⟨s.m_target, "initMIDITrack", [Val.tid id]⟩] ∧
    initAudioTrack s id = [⟨s.m_target, "initAudioTrack", [Val.tid id]⟩] ∧
    play s = [⟨s.m_target, "play", []⟩] ∧
    pause s = [⟨s.m_target, "pause", []⟩] ∧
    stop s = [⟨s.m_target, "stop", []⟩] ∧
    seek s pos = [⟨s.m_target, "seek", [Val.u64 pos]⟩] ∧
    rewind s = [⟨s.m_target, "rewind", []⟩] ∧
    setLoop s a b = [⟨s.m_target, "setLoop", [Val.u64 a, Val.u64 b]⟩] ∧
    unsetLoop s = [⟨s.m_target, "unsetLoop", []⟩] ∧
    (setMIDITrack false s id hm).sent =
      [⟨s.m_target, "setMIDITrack", [Val.tid id, Val.midiStream hm]⟩] ∧
    (setAudioTrack false s id ha).sent =
      [⟨s.m_target, "setAudioTrack", [Val.tid id, Val.audioStream ha]⟩] ∧
    (instantlyPlayMidi false s d).1.sent =
      [⟨s.m_target, "instantlyPlayMidi", [Val.midiData d]⟩] ∧
    (setMIDITrack true s id hm).sent = [] ∧
    (setAudioTrack true s id ha).sent = [] ∧
    (instantlyPlayMidi true s d).1.sent = [] := by
  refine ⟨rfl, rfl, rfl, rfl, rfl, rfl, rfl, rfl, rfl, rfl, rfl, rfl, rfl, rfl, rfl⟩

/-- Claim C4: a Message whose target differs from the proxy's target invokes
no handler of that proxy — the listener returns before any table build or
lookup, leaving the whole world (including the static-table state) unchanged
and sending nothing. -/
theorem c4_target_filter (w : World) (i : Nat) (m : Msg) (s : RpcSequencer)
    (hs : w.instances[i]? = some s) (hne : m.target ≠ s.m_target) :
    onMsg w i m = ⟨w, [], none⟩ := by
  simp [onMsg, hs, hne]

/-- Witness for C4 at a concrete mismatched target. -/
theorem c4_witness :
    onMsg ⟨[RpcSequencer.new], none, 0⟩ 0 ⟨99, "statusChanged", [Val.vstatus 3]⟩ =
      ⟨⟨[RpcSequencer.new], none, 0⟩, [], none⟩ :=
  c4_target_filter ⟨[RpcSequencer.new], none, 0⟩ 0
    ⟨99, "statusChanged", [Val.vstatus 3]⟩ RpcSequencer.new rfl (by decide)

/-- Claim C8: an inbound Message with matching target but a method absent
from the dispatch table is dropped: no handler is invoked, nothing is sent,
every proxy instance is left unchanged, and the listener returns normally
(the embedding is a total function, mirroring the log-and-return path). -/
theorem c8_unknown_method (w : World) (i : Nat) (m : Msg) (s : RpcSequencer)
    (hs : w.instances[i]? = some s) (ht : m.target = s.m_target)
    (hfc : findCall m.method = none) :
    (onMsg w i m).invoked = none ∧ (onMsg w i m).sent = [] ∧
    (onMsg w i m).world.instances = w.instances := by
  cases hb : w.builder <;> simp [onMsg, hs, ht, hfc, hb]

/-- Witness for C8 at a concrete unknown method. -/
theorem c8_witness :
    (onMsg ⟨[RpcSequencer.new], none, 0⟩ 0 ⟨1, "frobnicate", []⟩).invoked = none ∧
    (onMsg ⟨[RpcSequencer.new], none, 0⟩ 0 ⟨1, "frobnicate", []⟩).sent = [] ∧
    (onMsg ⟨[RpcSequencer.new], none, 0⟩ 0 ⟨1, "frobnicate", []⟩).world.instances =
      [RpcSequencer.new] :=
  c8_unknown_method ⟨[RpcSequencer.new], none, 0⟩ 0 ⟨1, "frobnicate", []⟩
    RpcSequencer.new rfl rfl (by decide)

/-- Claim C10: a dropped inbound Message — target mismatch or unknown
method — leaves every instance's cached status, cached playback position and
per-track subscription registry unchanged (the instance list is unchanged
wholesale) and sends no outbound Message. -/
theorem c10_dropped_frame (w : World) (i : Nat) (m : Msg) (s : RpcSequencer)
    (hs : w.instances[i]? = some s)
    (hdrop : m.target ≠ s.m_target ∨ findCall m.method = none) :
    (onMsg w i m).world.instances = w.instances ∧ (onMsg w i m).sent = [] := by
  rcases hdrop with hne | hfc
  · simp [onMsg, hs, hne]
  · by_cases ht : m.target = s.m_target
    · cases hb : w.builder <;> simp [onMsg, hs, ht, hfc, hb]
    · simp [onMsg, hs, ht]

/-- Witness for C10 at a concrete unknown-method drop. -/
theorem c10_witness :
    (onMsg ⟨[RpcSequencer.new], none, 0⟩ 0 ⟨1, "mystery", []⟩).world.instances =
      [RpcSequencer.new] ∧
    (onMsg ⟨[RpcSequencer.new], none, 0⟩ 0 ⟨1, "mystery", []⟩).sent = [] :=
  c10_dropped_frame ⟨[RpcSequencer.new], none, 0⟩ 0 ⟨1, "mystery", []⟩
    RpcSequencer.new rfl (Or.inr (by decide))

/-! ## Dispatch-table lookup and single-instance dispatch lemmas -/

lemma findCall_statusChanged : findCall "statusChanged" = some HandlerTag.hStatusChanged := by
  rfl

lemma findCall_positionChanged : findCall "positionChanged" = some HandlerTag.hPositionChanged := by
  rfl

lemma findCall_midiTickPlayed : findCall "midiTickPlayed" = some HandlerTag.hMidiTickPlayed := by
  rfl

lemma onMsg_statusChanged (s : RpcSequencer) (bld : Option Nat) (fr S : Nat)
    (hb : bld = none ∨ bld = some 0) :
    onMsg ⟨[s], bld, fr⟩ 0 ⟨s.m_target, "statusChanged", [Val.vstatus S]⟩ =
      ⟨⟨[{ s with m_status := S, m_statusChanged := s.m_statusChanged ++ [S] }],
        some 0, fr⟩, [], some "statusChanged"⟩ := by
  rcases hb with hb | hb <;> subst hb <;>
    simp [onMsg, applyHandler, argStatusAt, findCall_statusChanged, List.set]

lemma onMsg_positionChanged (s : RpcSequencer) (bld : Option Nat) (fr : Nat) (P : Int)
    (hb : bld = none ∨ bld = some 0) :
    onMsg ⟨[s], bld, fr⟩ 0 ⟨s.m_target, "positionChanged", [Val.vfloat P]⟩ =
      ⟨⟨[{ s with m_playbackPosition := P, m_positionChanged := s.m_positionChanged + 1 }],
        some 0, fr⟩, [], some "positionChanged"⟩ := by
  rcases hb with hb | hb <;> subst hb <;>
    simp [onMsg, applyHandler, argFloatAt, findCall_positionChanged, List.set]

lemma onMsg_midiTickPlayed_new (s : RpcSequencer) (bld : Option Nat) (fr k t : Nat)
    (hb : bld = none ∨ bld = some 0) (hk : mapFind s.m_midiTickPlayed k = none) :
    onMsg ⟨[s], bld, fr⟩ 0 ⟨s.m_target, "midiTickPlayed", [Val.tid k, Val.tick t]⟩ =
      ⟨⟨[{ s with m_midiTickPlayed := s.m_midiTickPlayed ++ [(k, ⟨fr, [t]⟩)] }],
        some 0, fr + 1⟩, [], some "midiTickPlayed"⟩ := by
  rcases hb with hb | hb <;> subst hb <;>
    simp [onMsg, applyHandler, argTidAt, argTickAt, findCall_midiTickPlayed,
      regSend, hk, List.set]

/-- Claim C7: dispatching `statusChanged(S)` caches `S` and pushes `S` to the
status channel; dispatching `positionChanged(P)` caches `P` and emits one
zero-payload notification; the read accessors `status` and
`playbackPosition` then return exactly those cached values and send no
Message (no round trip). -/
theorem c7_cached_state (w : World) (s : RpcSequencer) (S : Nat) (P : Int)
    (hw : w.instances = [s]) (hb : w.builder = none ∨ w.builder = some 0) :
    ∃ s2 : RpcSequencer,
      (onMsg (onMsg w 0 ⟨s.m_target, "statusChanged", [Val.vstatus S]⟩).world 0
          ⟨s.m_target, "positionChanged", [Val.vfloat P]⟩).world.instances = [s2] ∧
      status s2 = (S, []) ∧
      playbackPosition s2 = (P, []) ∧
      s2.m_statusChanged = s.m_statusChanged ++ [S] ∧
      s2.m_positionChanged = s.m_positionChanged + 1 := by
  obtain ⟨insts, bld, fr⟩ := w
  simp only at hw hb
  subst hw
  rw [onMsg_statusChanged s bld fr S hb]
  rw [onMsg_positionChanged _ (some 0) fr P (Or.inr rfl)]
  exact ⟨_, rfl, rfl, rfl, rfl, rfl⟩

/-- Witness for C7 at concrete status and position values. -/
theorem c7_witness :
    ∃ s2 : RpcSequencer,
      (onMsg (onMsg ⟨[RpcSequencer.new], none, 0⟩ 0
          ⟨RpcSequencer.new.m_target, "statusChanged", [Val.vstatus 2]⟩).world 0
          ⟨RpcSequencer.new.m_target, "positionChanged", [Val.vfloat 5]⟩).world.instances = [s2] ∧
      status s2 = (2, []) ∧
      playbackPosition s2 = (5, []) ∧
      s2.m_statusChanged = RpcSequencer.new.m_statusChanged ++ [2] ∧
      s2.m_positionChanged = RpcSequencer.new.m_positionChanged + 1 :=
  c7_cached_state ⟨[RpcSequencer.new], none, 0⟩ RpcSequencer.new 2 5 rfl (Or.inl rfl)

/-- Claim C3: an inbound `midiTickPlayed` event for an unregistered key `k`
makes the dispatch handler itself lazily create the per-key channel; a later
local `midiTickPlayed(k)` call returns that same channel instance (same
allocation identity), which has received the earlier tick, sends nothing,
and the registry holds exactly one entry for `k`. -/
theorem c3_inbound_first_convergence (w : World) (s : RpcSequencer) (k t : Nat)
    (hw : w.instances = [s]) (hb : w.builder = none ∨ w.builder = some 0)
    (hk : mapFind s.m_midiTickPlayed k = none) :
    ∃ ch : Chan,
      (midiTickPlayed
          (onMsg w 0 ⟨s.m_target, "midiTickPlayed", [Val.tid k, Val.tick t]⟩).world
          0 k).2.2 = some ch ∧
      ch.cid = w.fresh ∧
      ch.recv = [t] ∧
      (midiTickPlayed
          (onMsg w 0 ⟨s.m_target, "midiTickPlayed", [Val.tid k, Val.tick t]⟩).world
          0 k).2.1 = [] ∧
      (∃ s1 : RpcSequencer,
        (midiTickPlayed
            (onMsg w 0 ⟨s.m_target, "midiTickPlayed", [Val.tid k, Val.tick t]⟩).world
            0 k).1.instances = [s1] ∧
        keyCount s1.m_midiTickPlayed k = 1) := by
  obtain ⟨insts, bld, fr⟩ := w
  simp only at hw hb
  subst hw
  rw [onMsg_midiTickPlayed_new s bld fr k t hb hk]
  have hfind :
      mapFind (s.m_midiTickPlayed ++ [(k, ⟨fr, [t]⟩)]) k = some ⟨fr, [t]⟩ :=
    mapFind_append_of_none hk _
  refine ⟨⟨fr, [t]⟩, ?_, rfl, rfl, ?_, ?_⟩
  · simp [midiTickPlayed, hfind]
  · simp [midiTickPlayed, hfind]
  · refine ⟨{ s with m_midiTickPlayed := s.m_midiTickPlayed ++ [(k, ⟨fr, [t]⟩)] },
      by simp [midiTickPlayed, hfind], ?_⟩
    simp only [keyCount, List.filter_append]
    rw [List.length_append]
    have h0 : keyCount s.m_midiTickPlayed k = 0 := keyCount_of_find_none hk
    simp only [keyCount] at h0
    rw [h0]
    simp

/-- Witness for C3: inbound tick for key 5 before any local access. -/
theorem c3_witness :
    ∃ ch : Chan,
      (midiTickPlayed
          (onMsg ⟨[RpcSequencer.new], none, 0⟩ 0
            ⟨RpcSequencer.new.m_target, "midiTickPlayed", [Val.tid 5, Val.tick 9]⟩).world
          0 5).2.2 = some ch ∧
      ch.cid = 0 ∧
      ch.recv = [9] ∧
      (midiTickPlayed
          (onMsg ⟨[RpcSequencer.new], none, 0⟩ 0
            ⟨RpcSequencer.new.m_target, "midiTickPlayed", [Val.tid 5, Val.tick 9]⟩).world
          0 5).2.1 = [] ∧
      (∃ s1 : RpcSequencer,
        (midiTickPlayed
            (onMsg ⟨[RpcSequencer.new], none, 0⟩ 0
              ⟨RpcSequencer.new.m_target, "midiTickPlayed", [Val.tid 5, Val.tick 9]⟩).world
            0 5).1.instances = [s1] ∧
        keyCount s1.m_midiTickPlayed 5 = 1) :=
  c3_inbound_first_convergence ⟨[RpcSequencer.new], none, 0⟩ RpcSequencer.new 5 9
    rfl (Or.inl rfl) rfl

/-! ## The static table's captured instance -/

lemma applyHandler_builder (w : World) (b : Nat) (tag : HandlerTag) (args : List Val) :
    (applyHandler w b tag args).builder = w.builder := by
  unfold applyHandler
  rcases w.instances[b]? with _ | inst
  · rfl
  · cases tag
    · rcases argStatusAt args 0 <;> rfl
    · rcases argFloatAt args 0 <;> rfl
    · rcases argTidAt args 0 <;> rcases argTickAt args 1 <;> rfl

lemma applyHandler_other (w : World) (b : Nat) (tag : HandlerTag) (args : List Val)
    (j : Nat) (hj : j ≠ b) :
    (applyHandler w b tag args).instances[j]? = w.instances[j]? := by
  unfold applyHandler
  rcases w.instances[b]? with _ | inst
  · rfl
  · have hset : ∀ (x : RpcSequencer), (w.instances.set b x)[j]? = w.instances[j]? :=
      fun x => List.getElem?_set_ne (Ne.symm hj)
    cases tag
    · rcases argStatusAt args 0 <;> simp [hset]
    · rcases argFloatAt args 0 <;> simp [hset]
    · rcases argTidAt args 0 <;> rcases argTickAt args 1 <;> simp [hset]

/-- Claim C6, counterexample: with two proxy instances (both targeting the
sequencer), the second instance's listener receives and dispatches a
`statusChanged(1)` Message (`invoked = some "statusChanged"`), yet the
second instance's cached status stays `0` — the static table's handlers
captured the first instance's `this`, so the effects did not land on the
proxy instance whose listener received the message, contradicting the
claim's "safe to share across all proxy instances". -/
theorem c6_counterexample :
    (onMsg (onMsg ⟨[RpcSequencer.new, RpcSequencer.new], none, 0⟩ 0
        ⟨sequencerTarget, "statusChanged", [Val.vstatus 1]⟩).world 1
        ⟨sequencerTarget, "statusChanged", [Val.vstatus 1]⟩).invoked =
      some "statusChanged" ∧
    ((onMsg (onMsg ⟨[RpcSequencer.new, RpcSequencer.new], none, 0⟩ 0
        ⟨sequencerTarget, "statusChanged", [Val.vstatus 1]⟩).world 1
        ⟨sequencerTarget, "statusChanged", [Val.vstatus 1]⟩).world.instances[1]?).map
        RpcSequencer.m_status = some 0 ∧
    ¬ (((onMsg (onMsg ⟨[RpcSequencer.new, RpcSequencer.new], none, 0⟩ 0
        ⟨sequencerTarget, "statusChanged", [Val.vstatus 1]⟩).world 1
        ⟨sequencerTarget, "statusChanged", [Val.vstatus 1]⟩).world.instances[1]?).map
        RpcSequencer.m_status = some 1) := by
  decide

/-- Claim C6, amended: the dispatch table is built exactly once — lazily, on
the first dispatch of a target-matching Message — and never rebuilt (the
captured-instance record is stable); but it is not instance-safe: handler
effects are applied to the proxy instance that first built the table, and
every other instance is left untouched, so sharing it is effect-correct
only when the receiving instance is the builder (in particular when a
single proxy instance exists). -/
theorem c6_amended_table_capture (w : World) (i : Nat) (m : Msg) (b : Nat) :
    (w.builder = some b →
      (onMsg w i m).world.builder = some b ∧
      ∀ j, j ≠ b → (onMsg w i m).world.instances[j]? = w.instances[j]?) ∧
    (w.builder = none →
      ∀ s, w.instances[i]? = some s → m.target = s.m_target →
        (onMsg w i m).world.builder = some i) := by
  constructor
  · intro hb
    rcases hst : w.instances[i]? with _ | inst
    · simp [onMsg, hst, hb]
    · by_cases ht : m.target = inst.m_target
      · rcases hfc : findCall m.method with _ | tag
        · simp [onMsg, hst, ht, hfc, hb]
        · constructor
          · simp only [onMsg, hst, ht, hb, hfc]
            simp [applyHandler_builder, hb]
          · intro j hj
            simp only [onMsg, hst, ht, hb, hfc]
            simp [applyHandler_other _ _ _ _ j hj]
      · simp [onMsg, hst, ht, hb]
  · intro hb s hs ht
    rcases hfc : findCall m.method with _ | tag
    · simp [onMsg, hs, ht, hfc, hb]
    · simp only [onMsg, hs, ht, hb, hfc]
      simp [applyHandler_builder]

/-- Witness for C6 (amended) with the table already built by instance 0:
dispatch through instance 1's listener keeps the builder and leaves
instance 1 unchanged. -/
theorem c6_witness :
    (onMsg ⟨[RpcSequencer.new, RpcSequencer.new], some 0, 0⟩ 1
        ⟨sequencerTarget, "statusChanged", [Val.vstatus 1]⟩).world.builder = some 0 ∧
    (onMsg ⟨[RpcSequencer.new, RpcSequencer.new], some 0, 0⟩ 1
        ⟨sequencerTarget, "statusChanged", [Val.vstatus 1]⟩).world.instances[1]? =
      ([RpcSequencer.new, RpcSequencer.new] :
        List RpcSequencer)[1]? :=
  ⟨((c6_amended_table_capture ⟨[RpcSequencer.new, RpcSequencer.new], some 0, 0⟩ 1
      ⟨sequencerTarget, "statusChanged", [Val.vstatus 1]⟩ 0).1 rfl).1,
   ((c6_amended_table_capture ⟨[RpcSequencer.new, RpcSequencer.new], some 0, 0⟩ 1
      ⟨sequencerTarget, "statusChanged", [Val.vstatus 1]⟩ 0).1 rfl).2 1 (by decide)⟩

/-- Claim C9: on destruction the proxy revokes its listener registration
(`unlisten(m_listenID)` with the id obtained at setup), so a Message
delivered afterwards invokes no handler of the destroyed proxy; removal is
idempotent. -/
theorem c9_teardown_unlisten (ch : RpcChannel) (s : RpcSequencer) (m : Msg) :
    (setupListen ch s).2.m_listenID ∉
      deliverIds (destruct (setupListen ch s).1 (setupListen ch s).2) m ∧
    RpcChannel.unlisten (destruct (setupListen ch s).1 (setupListen ch s).2)
        (setupListen ch s).2.m_listenID =
      destruct (setupListen ch s).1 (setupListen ch s).2 := by
  constructor
  · simp [setupListen, RpcChannel.listen, destruct, RpcChannel.unlisten, deliverIds]
  · simp [setupListen, RpcChannel.listen, destruct, RpcChannel.unlisten,
      List.filter_filter]

/-! ## Channel-identity stability lemmas -/

lemma getElem0_some_lt {l : List RpcSequencer} {s : RpcSequencer}
    (h : l[0]? = some s) : 0 < l.length := by
  cases l <;> simp_all

lemma chanIdAt_applyHandler {w : World} {k c : Nat}
    (h : chanIdAt w k = some c) (b : Nat) (tag : HandlerTag) (args : List Val) :
    chanIdAt (applyHandler w b tag args) k = some c := by
  rcases h0 : w.instances[0]? with _ | s0
  · simp [chanIdAt, h0] at h
  rcases hf : mapFind s0.m_midiTickPlayed k with _ | ch
  · simp [chanIdAt, h0, hf] at h
  have hc : ch.cid = c := by simp [chanIdAt, h0, hf] at h; exact h
  by_cases hb : b = 0
  · subst hb
    have hlt : 0 < w.instances.length := getElem0_some_lt h0
    unfold applyHandler
    rw [h0]
    cases tag
    · rcases argStatusAt args 0 with _ | sv
      · simp [chanIdAt, h0, hf, hc]
      · simp [chanIdAt, List.getElem?_set_eq_of_lt _ hlt, hf, hc]
    · rcases argFloatAt args 0 with _ | pv
      · simp [chanIdAt, h0, hf, hc]
      · simp [chanIdAt, List.getElem?_set_eq_of_lt _ hlt, hf, hc]
    · rcases hd1 : argTidAt args 0 with _ | k2
      · simp [chanIdAt, h0, hf, hc]
      · rcases hd2 : argTickAt args 1 with _ | t2
        · simp [chanIdAt, h0, hf, hc]
        · by_cases hkk : k2 = k
          · subst hkk
            simp only [regSend, hf]
            simp [chanIdAt, List.getElem?_set_eq_of_lt _ hlt,
              mapFind_replace_self hf, hc]
          · have hne : k ≠ k2 := fun hx => hkk hx.symm
            rcases hf2 : mapFind s0.m_midiTickPlayed k2 with _ | ch2
            · simp only [regSend, hf2]
              simp [chanIdAt, List.getElem?_set_eq_of_lt _ hlt,
                mapFind_append_single_ne hne, hf, hc]
            · simp only [regSend, hf2]
              simp [chanIdAt, List.getElem?_set_eq_of_lt _ hlt,
                mapFind_replace_ne hne, hf, hc]
  · unfold applyHandler
    rcases hstb : w.instances[b]? with _ | instb
    · simp [chanIdAt, h0, hf, hc]
    have hset : ∀ (x : RpcSequencer), (w.instances.set b x)[0]? = some s0 := by
      intro x
      rw [List.getElem?_set_ne (fun hx => hb hx)]
      exact h0
    cases tag
    · rcases argStatusAt args 0 <;> simp [chanIdAt, h0, hset, hf, hc]
    · rcases argFloatAt args 0 <;> simp [chanIdAt, h0, hset, hf, hc]
    · rcases argTidAt args 0 <;> rcases argTickAt args 1 <;>
        simp [chanIdAt, h0, hset, hf, hc]

lemma chanIdAt_builder (w : World) (x : Option Nat) (k : Nat) :
    chanIdAt { w with builder := x } k = chanIdAt w k := rfl

lemma chanIdAt_onMsg {w : World} {k c : Nat}
    (h : chanIdAt w k = some c) (i : Nat) (m : Msg) :
    chanIdAt (onMsg w i m).world k = some c := by
  unfold onMsg
  rcases hst : w.instances[i]? with _ | inst
  · exact h
  by_cases ht : m.target = inst.m_target
  · simp only [ht, ne_eq, not_true_eq_false, if_false]
    rcases hb : w.builder with _ | b
    · rcases hfc : findCall m.method with _ | tag
      · simpa [chanIdAt_builder] using h
      · exact chanIdAt_applyHandler (by simpa [chanIdAt_builder] using h) _ _ _
    · rcases hfc : findCall m.method with _ | tag
      · exact h
      · exact chanIdAt_applyHandler h _ _ _
  · simp only [ne_eq, ht, not_false_eq_true, if_true]
    exact h

lemma chanIdAt_access {w : World} {k c : Nat}
    (h : chanIdAt w k = some c) (k' : Nat) :
    chanIdAt (midiTickPlayed w 0 k').1 k = some c := by
  rcases h0 : w.instances[0]? with _ | s0
  · simp [chanIdAt, h0] at h
  rcases hf : mapFind s0.m_midiTickPlayed k with _ | ch
  · simp [chanIdAt, h0, hf] at h
  have hc : ch.cid = c := by simp [chanIdAt, h0, hf] at h; exact h
  have hlt : 0 < w.instances.length := getElem0_some_lt h0
  unfold midiTickPlayed
  simp only [h0]
  rcases hf' : mapFind s0.m_midiTickPlayed k' with _ | ch'
  · have hne : k ≠ k' := by
      intro hx
      rw [hx] at hf
      rw [hf] at hf'
      exact Option.noConfusion hf'
    simp [chanIdAt, hf', List.getElem?_set_eq_of_lt _ hlt,
      mapFind_append_single_ne hne, hf, hc]
  · simp [chanIdAt, hf', h0, hf, hc]

lemma access_present {w : World} {k c : Nat} (h : chanIdAt w k = some c) :
    (midiTickPlayed w 0 k).2.1 = [] ∧
    (∃ ch : Chan, (midiTickPlayed w 0 k).2.2 = some ch ∧ ch.cid = c) := by
  rcases h0 : w.instances[0]? with _ | s0
  · simp [chanIdAt, h0] at h
  rcases hf : mapFind s0.m_midiTickPlayed k with _ | ch
  · simp [chanIdAt, h0, hf] at h
  have hc : ch.cid = c := by simp [chanIdAt, h0, hf] at h; exact h
  unfold midiTickPlayed
  simp only [h0, hf]
  exact ⟨trivial, ch, rfl, hc⟩

lemma onMsg_sent_nil (w : World) (i : Nat) (m : Msg) : (onMsg w i m).sent = [] := by
  unfold onMsg
  rcases w.instances[i]? with _ | inst
  · rfl
  by_cases ht : m.target = inst.m_target
  · simp only [ht, ne_eq, not_true_eq_false, if_false]
    rcases w.builder <;> rcases findCall m.method <;> rfl
  · simp only [ne_eq, ht, not_false_eq_true, if_true]

lemma bindCount_single_self (k : Nat) (t : Target) :
    bindCount k [⟨t, "bindMidiTickPlayed", [Val.tid k]⟩] = 1 := by
  simp [bindCount, isBindFor]

lemma bindCount_single_ne {k k' : Nat} (h : k' ≠ k) (t : Target) :
    bindCount k [⟨t, "bindMidiTickPlayed", [Val.tid k']⟩] = 0 := by
  simp [bindCount, isBindFor, h]

lemma stepOp_bind_bound (w : World) (op : Op) (k : Nat) :
    bindCount k (stepOp w op).2 + (if (chanIdAt w k).isSome then 1 else 0) ≤
      (if (chanIdAt (stepOp w op).1 k).isSome then 1 else 0) := by
  cases op with
  | deliver m =>
    have hs : (stepOp w (Op.deliver m)).2 = [] := by
      simp [stepOp, onMsg_sent_nil]
    rw [hs]
    rcases hc : chanIdAt w k with _ | c
    · simp [bindCount]
    · have hafter : chanIdAt (stepOp w (Op.deliver m)).1 k = some c := by
        simpa [stepOp] using chanIdAt_onMsg hc 0 m
      simp [bindCount, hafter]
  | access k' =>
    rcases hc : chanIdAt w k with _ | c
    · -- no channel for k yet
      rcases h0 : w.instances[0]? with _ | s0
      · simp [stepOp, midiTickPlayed, h0, bindCount]
      have hlt : 0 < w.instances.length := getElem0_some_lt h0
      rcases hf' : mapFind s0.m_midiTickPlayed k' with _ | ch'
      · by_cases hkk : k' = k
        · subst hkk
          have hfk : mapFind s0.m_midiTickPlayed k' = none := hf'
          have hsent : (stepOp w (Op.access k')).2 =
              [⟨s0.m_target, "bindMidiTickPlayed", [Val.tid k']⟩] := by
            simp [stepOp, midiTickPlayed, h0, hf']
          rw [hsent, bindCount_single_self]
          have hafter : chanIdAt (stepOp w (Op.access k')).1 k' =
              some w.fresh := by
            simp [stepOp, midiTickPlayed, h0, hf', chanIdAt,
              List.getElem?_set_eq_of_lt _ hlt, mapFind_append_of_none hf']
          simp [hafter]
        · have hne : k' ≠ k := hkk
          have hsent : (stepOp w (Op.access k')).2 =
              [⟨s0.m_target, "bindMidiTickPlayed", [Val.tid k']⟩] := by
            simp [stepOp, midiTickPlayed, h0, hf']
          rw [hsent, bindCount_single_ne hne]
          simp
      · -- channel for k' already present: nothing sent, world unchanged
        have hstep : stepOp w (Op.access k') = (w, []) := by
          simp [stepOp, midiTickPlayed, h0, hf']
        rw [hstep]
        simp [bindCount, hc]
    · -- channel for k exists: stability, and no bind for k can be sent
      have hafter : chanIdAt (stepOp w (Op.access k')).1 k = some c := by
        simpa [stepOp] using chanIdAt_access hc k'
      rcases h0 : w.instances[0]? with _ | s0
      · simp [chanIdAt, h0] at hc
      rcases hf' : mapFind s0.m_midiTickPlayed k' with _ | ch'
      · have hne : k' ≠ k := by
          intro hx
          subst hx
          have : mapFind s0.m_midiTickPlayed k' ≠ none := by
            simp [chanIdAt, h0] at hc
            rcases hx2 : mapFind s0.m_midiTickPlayed k' with _ | u
            · rw [hx2] at hc; simp at hc
            · simp
          exact this hf'
        have hsent : (stepOp w (Op.access k')).2 =
            [⟨s0.m_target, "bindMidiTickPlayed", [Val.tid k']⟩] := by
          simp [stepOp, midiTickPlayed, h0, hf']
        rw [hsent, bindCount_single_ne hne]
        simp [hafter]
      · have hstep : stepOp w (Op.access k') = (w, []) := by
          simp [stepOp, midiTickPlayed, h0, hf']
        rw [hstep]
        simp [bindCount, hc]

lemma runOps_bind_bound (k : Nat) (ops : List Op) : ∀ (w : World),
    bindCount k (runOps w ops).2 + (if (chanIdAt w k).isSome then 1 else 0) ≤ 1 := by
  induction ops with
  | nil =>
    intro w
    rcases chanIdAt w k <;> simp [runOps, bindCount]
  | cons op rest ih =>
    intro w
    have hstep := stepOp_bind_bound w op k
    have hih := ih (stepOp w op).1
    have hsplit : bindCount k (runOps w (op :: rest)).2 =
        bindCount k (stepOp w op).2 + bindCount k (runOps (stepOp w op).1 rest).2 := by
      simp [runOps, bindCount, List.filter_append]
    have hrun1 : (runOps w (op :: rest)).1 = (runOps (stepOp w op).1 rest).1 := by
      simp [runOps]
    omega

lemma chanIdAt_runOps {k c : Nat} (ops : List Op) : ∀ (w : World),
    chanIdAt w k = some c → chanIdAt (runOps w ops).1 k = some c := by
  induction ops with
  | nil => intro w h; simpa [runOps] using h
  | cons op rest ih =>
    intro w h
    have hstep : chanIdAt (stepOp w op).1 k = some c := by
      cases op with
      | deliver m => simpa [stepOp] using chanIdAt_onMsg h 0 m
      | access k' => simpa [stepOp] using chanIdAt_access h k'
    have := ih (stepOp w op).1 hstep
    simpa [runOps] using this

/-! ## Subscription-registry traces (claim C2) -/

/-- Claim C2, counterexample: when an inbound `midiTickPlayed` event for key
7 arrives before any local access, the handler path creates the channel via
`operator[]` without sending any bind request, and the two later local
`midiTickPlayed(7)` calls find the channel and send nothing — so zero
`bindMidiTickPlayed` Messages for key 7 are sent across both paths, not
exactly one as the claim states. -/
theorem c2_counterexample :
    ¬ (bindCount 7 (runOps ⟨[RpcSequencer.new], none, 0⟩
        [Op.deliver ⟨sequencerTarget, "midiTickPlayed", [Val.tid 7, Val.tick 3]⟩,
         Op.access 7, Op.access 7]).2 = 1) := by
  decide

/-- Claim C2, amended: over any sequence of local accesses and inbound
deliveries, at most one `bindMidiTickPlayed` Message for key `k` is ever
sent; a first local `midiTickPlayed(k)` call on an unbound key sends
exactly that one bind-request Message (carrying `k`, addressed to the
proxy's target), registers and returns the fresh channel, and exactly one
bind Message for `k` is sent across the entire remaining trace; zero are
sent when the inbound-event path creates the channel first; and once a
channel with identity `c` is registered for `k`, every local
`midiTickPlayed(k)` call sends nothing and returns that identical channel
instance, whose identity survives any further trace. -/
theorem c2_amended_bind_once (w : World) (k c : Nat) (ops : List Op) :
    bindCount k (runOps w ops).2 ≤ 1 ∧
    (∀ s : RpcSequencer, w.instances[0]? = some s → chanIdAt w k = none →
      (midiTickPlayed w 0 k).2.1 =
        [⟨s.m_target, "bindMidiTickPlayed", [Val.tid k]⟩] ∧
      (midiTickPlayed w 0 k).2.2 = some ⟨w.fresh, []⟩ ∧
      chanIdAt (midiTickPlayed w 0 k).1 k = some w.fresh ∧
      bindCount k (runOps w (Op.access k :: ops)).2 = 1) ∧
    (chanIdAt w k = some c →
      (midiTickPlayed w 0 k).2.1 = [] ∧
      (∃ ch : Chan, (midiTickPlayed w 0 k).2.2 = some ch ∧ ch.cid = c) ∧
      chanIdAt (runOps w ops).1 k = some c) := by
  refine ⟨?_, ?_, ?_⟩
  · have := runOps_bind_bound k ops w
    omega
  · intro s hs hnone
    have hf : mapFind s.m_midiTickPlayed k = none := by
      rcases hx : mapFind s.m_midiTickPlayed k with _ | ch
      · rfl
      · exfalso
        simp [chanIdAt, hs, hx] at hnone
    have hlt : 0 < w.instances.length := getElem0_some_lt hs
    have hafter : chanIdAt (midiTickPlayed w 0 k).1 k = some w.fresh := by
      simp [midiTickPlayed, hs, hf, chanIdAt,
        List.getElem?_set_eq_of_lt _ hlt, mapFind_append_of_none hf]
    refine ⟨by simp [midiTickPlayed, hs, hf], by simp [midiTickPlayed, hs, hf],
      hafter, ?_⟩
    have hsplit : bindCount k (runOps w (Op.access k :: ops)).2 =
        bindCount k (stepOp w (Op.access k)).2 +
          bindCount k (runOps (stepOp w (Op.access k)).1 ops).2 := by
      simp [runOps, bindCount, List.filter_append]
    have hstep2 : (stepOp w (Op.access k)).2 =
        [⟨s.m_target, "bindMidiTickPlayed", [Val.tid k]⟩] := by
      simp [stepOp, midiTickPlayed, hs, hf]
    have hafter2 : chanIdAt (stepOp w (Op.access k)).1 k = some w.fresh := by
      simpa [stepOp] using hafter
    have hbound := runOps_bind_bound k ops (stepOp w (Op.access k)).1
    simp only [hafter2, Option.isSome_some, if_true] at hbound
    rw [hsplit, hstep2, bindCount_single_self]
    omega
  · intro hc
    obtain ⟨h1, h2⟩ := access_present hc
    exact ⟨h1, h2, chanIdAt_runOps ops w hc⟩

/-- Witness for C2 (amended): from a fresh single-proxy world, the first
local access for key 7 sends exactly the one bind-request Message and a
second access adds none (total exactly one across the trace); from the
world after that first access (channel identity 0), a repeat access sends
nothing, returns the same channel, and the identity survives. -/
theorem c2_witness :
    bindCount 7 (runOps ⟨[RpcSequencer.new], none, 0⟩ [Op.access 7]).2 ≤ 1 ∧
    ((midiTickPlayed ⟨[RpcSequencer.new], none, 0⟩ 0 7).2.1 =
       [⟨RpcSequencer.new.m_target, "bindMidiTickPlayed", [Val.tid 7]⟩] ∧
     (midiTickPlayed ⟨[RpcSequencer.new], none, 0⟩ 0 7).2.2 = some ⟨0, []⟩ ∧
     chanIdAt (midiTickPlayed ⟨[RpcSequencer.new], none, 0⟩ 0 7).1 7 = some 0 ∧
     bindCount 7 (runOps ⟨[RpcSequencer.new], none, 0⟩
        [Op.access 7, Op.access 7]).2 = 1) ∧
    ((midiTickPlayed (midiTickPlayed ⟨[RpcSequencer.new], none, 0⟩ 0 7).1 0 7).2.1 = [] ∧
     (∃ ch : Chan,
        (midiTickPlayed (midiTickPlayed ⟨[RpcSequencer.new], none, 0⟩ 0 7).1 0 7).2.2 =
          some ch ∧ ch.cid = 0) ∧
     chanIdAt (runOps (midiTickPlayed ⟨[RpcSequencer.new], none, 0⟩ 0 7).1
        [Op.access 7]).1 7 = some 0) :=
  ⟨(c2_amended_bind_once ⟨[RpcSequencer.new], none, 0⟩ 7 0 [Op.access 7]).1,
   (c2_amended_bind_once ⟨[RpcSequencer.new], none, 0⟩ 7 0 [Op.access 7]).2.1
      RpcSequencer.new rfl rfl,
   (c2_amended_bind_once (midiTickPlayed ⟨[RpcSequencer.new], none, 0⟩ 0 7).1 7 0
      [Op.access 7]).2.2 (by decide)⟩
